import Mathlib

/-!
Shallow embedding of the `chain` Go library (packages `chain`, `iface`, `x`)
over a fragment of Go's dynamic (interface-boxed) values.

Panics are modelled with `Except String`; the message is the panic text.
`reflect` facts used by the source and reproduced here:
  - `reflect.TypeOf(nil)` is the nil `reflect.Type`; invoking a method on it
    panics (nil pointer dereference),
  - `reflect.DeepEqual` on values of distinct dynamic types is false, and two
    non-nil function values are never deeply equal,
  - comparing two interface values whose identical dynamic type is
    uncomparable (slices, maps, funcs) panics,
  - `x.Nil` is true for an untyped nil and for nil-valued
    chan/func/map/pointer/slice values boxed in an interface.
-/

set_option autoImplicit false

/-- Dynamic (runtime) types of the fragment. `linkT`/`buildLinkT` are the
pointer types `*chain.Link` / `*chain.buildLink`; `linkS`/`buildLinkS` their
struct pointees. `custom i` is a user-defined pointer type `*N_i` carrying
optional capability methods; `customS i` is its pointee. `funcT i` is a
function type. -/
inductive Ty where
  | str
  | int
  | funcT (i : Nat)
  | slice (t : Ty)
  | ptr (t : Ty)
  | linkT
  | buildLinkT
  | linkS
  | buildLinkS
  | custom (i : Nat)
  | customS (i : Nat)
deriving DecidableEq, Repr

/-- Interface-boxed values of the fragment.

  - `nilV` is the untyped nil interface.
  - `nilOf t` is a typed semantically-nil value of declared type `t`
    (a nil pointer/slice/map/func boxed in an interface).
  - `fn i` is a non-nil function value of type `funcT i`.
  - `sliceV es` is a non-nil `[]int` with the given contents.
  - `ptrV t` is a non-nil pointer to a slot of type `t` (an `As` target).
  - `linkV isBuild held hVal hOk` is a `*Link` (or `*buildLink` when
    `isBuild`): `held` is the `v` field set by `Set`, and `(hVal, hOk)` is the
    embedded `Holder` (wrapped predecessor; `hOk = false` means never wrapped,
    in which case `hVal = nilV` matches the Go zero value).
  - `node id ns isI isA asI asT asV uwI uwOk uwV` is a value of the custom
    pointer type `custom id`. `ns` marks a nil receiver (semantically nil but
    with nil-safe methods). `isI`: implements `iface.Is`, with
    `Is(target) = (target = isA)`. `asI`: implements `iface.As`, with
    `As(t)` succeeding (and writing `asV`) exactly when the target pointee
    type is `asT`. `uwI`: implements `iface.Unwrap`, returning
    `(uwV, true)` when `uwOk`, else `(nil, false)`. In any configuration
    realizable in Go, nodes with equal `id` have identical method behaviour,
    since methods belong to the type. -/
inductive Val where
  | nilV
  | str (s : String)
  | intV (n : Int)
  | fn (i : Nat)
  | sliceV (es : List Int)
  | nilOf (t : Ty)
  | ptrV (t : Ty)
  | linkV (isBuild : Bool) (held : Val) (hVal : Val) (hOk : Bool)
  | node (id : Nat) (ns : Bool) (isI : Bool) (isA : Val)
         (asI : Bool) (asT : Ty) (asV : Val)
         (uwI : Bool) (uwOk : Bool) (uwV : Val)
deriving DecidableEq, Repr

/-- Panic message of a nil pointer dereference (also raised when a method is
invoked on the nil `reflect.Type` returned by `reflect.TypeOf(nil)`). -/
def nilDerefMsg : String := "runtime error: invalid memory address or nil pointer dereference"

/-- Panic message of comparing interface values of an uncomparable dynamic type. -/
def cmpPanicMsg : String := "runtime error: comparing uncomparable type"

/-- The panic raised by `As` on a nil target (`x.ValueOf` reports not-ok). -/
def nilTargetMsg : String := "chain: target must not be nil"

/-- The panic raised by `As` on a non-pointer target
(`x.MakeTypeExample` returns `x.ErrIncorrectType`). -/
def ptrTargetMsg : String := "chain: target must be a pointer"

/-- The panic raised by `Build` on an empty argument list. -/
def emptyBuildMsg : String := "chain: Build called with zero arguments"

/-- Embeds `reflect.TypeOf`: the dynamic type of a boxed value, `none` for the
nil interface. -/
def typeOf : Val → Option Ty
  | .nilV => none
  | .str _ => some .str
  | .intV _ => some .int
  | .fn i => some (.funcT i)
  | .sliceV _ => some (.slice .int)
  | .nilOf t => some t
  | .ptrV t => some (.ptr t)
  | .linkV b _ _ _ => some (if b then .buildLinkT else .linkT)
  | .node i _ _ _ _ _ _ _ _ _ => some (.custom i)

/-- Embeds `x.Nil`: semantic nilness of a boxed value (untyped nil, or a
nil-valued chan/func/map/pointer/slice; a `node` with a nil receiver). -/
def semNil : Val → Bool
  | .nilV => true
  | .nilOf _ => true
  | .node _ ns _ _ _ _ _ _ _ _ => ns
  | _ => false

/-- Go type comparability: slice, map and func types are uncomparable; the
other types of the fragment are comparable. -/
def comparableTy : Ty → Bool
  | .funcT _ => false
  | .slice _ => false
  | _ => true

/-- Embeds Go interface equality `a == b` (used by `Link.Is`). `none` is the
runtime panic on identical uncomparable dynamic types. Pointer identity of
`linkV`/`node`/`ptrV` values is approximated structurally (sound for the
configurations used below, which never compare two distinct-but-equal
pointers). -/
def eqIface (a b : Val) : Option Bool :=
  match a, b with
  | .nilV, .nilV => some true
  | .nilV, _ => some false
  | _, .nilV => some false
  | _, _ =>
    match typeOf a, typeOf b with
    | some ta, some tb =>
      if ta = tb then
        if comparableTy ta then some (decide (a = b)) else none
      else some false
    | _, _ => some false

/-- Embeds `reflect.DeepEqual` on the fragment. Distinct dynamic types are
never deeply equal; non-nil function values are never deeply equal (even to
themselves); `*Link` pointers compare their pointees field-wise; two values
of the same custom node type agree exactly when their receiver nilness
agrees (their method configuration is type-determined). -/
def deepEqual : Val → Val → Bool
  | .nilV, .nilV => true
  | .str a, .str b => decide (a = b)
  | .intV a, .intV b => decide (a = b)
  | .fn _, .fn _ => false
  | .sliceV a, .sliceV b => decide (a = b)
  | .nilOf t, .nilOf u => decide (t = u)
  | .ptrV t, .ptrV u => decide (t = u)
  | .linkV b1 h1 v1 o1, .linkV b2 h2 v2 o2 =>
    decide (b1 = b2) && deepEqual h1 h2 && deepEqual v1 v2 && decide (o1 = o2)
  | .node i1 n1 _ _ _ _ _ _ _ _, .node i2 n2 _ _ _ _ _ _ _ _ =>
    decide (i1 = i2) && decide (n1 = n2)
  | _, _ => false

/-- Embeds `chain.Unwrap`: capability dispatch to `iface.Unwrap`.
`*Link.Unwrap` returns `Holder.Get()`; a `node` returns its hook result; a
typed nil `*Link` panics (nil receiver dereferences `l.h`); every
non-implementing value gives `(nil, false)`. -/
def unwrapGo : Val → Except String (Val × Bool)
  | .linkV _ _ hv hok => .ok (if hok then (hv, true) else (.nilV, false))
  | .node _ _ _ _ _ _ _ uwI uwOk uwV =>
    .ok (if uwI && uwOk then (uwV, true) else (.nilV, false))
  | .nilOf t =>
    match t with
    | .linkT => .error nilDerefMsg
    | .buildLinkT => .error nilDerefMsg
    | _ => .ok (.nilV, false)
  | _ => .ok (.nilV, false)

/-- Outcome of the per-node body of the `Is` loop. -/
inductive StepRes where
  | panic (msg : String)
  | ret (b : Bool)
  | cont
deriving DecidableEq, Repr

/-- Capability dispatch `v.(iface.Is)` followed by the hook call.
`none`: the dynamic type does not implement `iface.Is`. `*Link.Is` is
`l.v == target` (interface equality, may panic); a typed nil `*Link`
implements the interface but panics on the call (nil receiver). -/
def isHookCall (v target : Val) : Option (Except String Bool) :=
  match v with
  | .linkV _ hd _ _ =>
    some (match eqIface hd target with
          | none => .error cmpPanicMsg
          | some b => .ok b)
  | .node _ _ iI a _ _ _ _ _ _ =>
    if iI then some (.ok (decide (target = a))) else none
  | .nilOf t =>
    match t with
    | .linkT => some (.error nilDerefMsg)
    | .buildLinkT => some (.error nilDerefMsg)
    | _ => none
  | _ => none

/-- One iteration of the `Is` loop body (source lines 59-72): the nil/nil
special case returns the declared-type comparison (without advancing); then
the custom hook; then `reflect.DeepEqual`; otherwise fall through to the
`Unwrap` advance. -/
def nodeTest (v target : Val) : StepRes :=
  if semNil v && semNil target then
    .ret (decide (typeOf v = typeOf target))
  else
    match isHookCall v target with
    | some (.error e) => .panic e
    | some (.ok true) => .ret true
    | _ => if deepEqual v target then .ret true else .cont

/-- Embeds `chain.Is`: walk the chain from `v`, applying `nodeTest` at each
node and advancing by `Unwrap`. The advance is spelled per unwrappable
constructor (it agrees with `unwrapGo`, see `isGo_advance`). -/
def isGo : Val → Val → Except String Bool
  | v@(.linkV _ _ hv hok), t =>
    match nodeTest v t with
    | .panic e => .error e
    | .ret b => .ok b
    | .cont => if hok then isGo hv t else .ok false
  | v@(.node _ _ _ _ _ _ _ uwI uwOk uwV), t =>
    match nodeTest v t with
    | .panic e => .error e
    | .ret b => .ok b
    | .cont => if uwI && uwOk then isGo uwV t else .ok false
  | v, t =>
    match nodeTest v t with
    | .panic e => .error e
    | .ret b => .ok b
    | .cont => .ok false

/-- Go assignability restricted to the fragment: no interface types occur as
pointees, so a type is assignable only to itself. -/
def assignableTo (src dst : Ty) : Bool := decide (src = dst)

/-- Pointee type of a pointer-kind type (`x.MakeTypeExample`): `none` when the
type is not of pointer kind (`x.ErrIncorrectType`). -/
def pointee : Ty → Option Ty
  | .ptr t => some t
  | .linkT => some .linkS
  | .buildLinkT => some .buildLinkS
  | .custom i => some (.customS i)
  | _ => none

/-- Embeds the loop of `chain.As` (source lines 108-125), after the target has
been validated; `t` is the target's pointee type. The result pairs the
returned boolean with the value written into the target slot (`none` when the
slot is untouched). At each node: a nil interface node panics
(`reflect.TypeOf(nil)` handed to `TypeExample.AssignableFrom`); direct
assignability writes the node itself; otherwise the `iface.As` hook runs
(`*Link.As` recurses into the held value, a typed nil `*Link` panics);
otherwise advance by `Unwrap`. -/
def asLoop : Val → Ty → Except String (Bool × Option Val)
  | .nilV, _ => .error nilDerefMsg
  | v@(.linkV b hd hv hok), t =>
    if assignableTo (if b then .buildLinkT else .linkT) t then .ok (true, some v)
    else
      match asLoop hd t with
      | .error e => .error e
      | .ok (true, w) => .ok (true, w)
      | .ok (false, _) => if hok then asLoop hv t else .ok (false, none)
  | v@(.node i _ _ _ asI asT asV uwI uwOk uwV), t =>
    if assignableTo (.custom i) t then .ok (true, some v)
    else if asI && decide (t = asT) then .ok (true, some asV)
    else if uwI && uwOk then asLoop uwV t
    else .ok (false, none)
  | v@(.nilOf ty), t =>
    if assignableTo ty t then .ok (true, some v)
    else
      match ty with
      | .linkT => .error nilDerefMsg
      | .buildLinkT => .error nilDerefMsg
      | _ => .ok (false, none)
  | v, t =>
    match typeOf v with
    | none => .error nilDerefMsg
    | some vt => if assignableTo vt t then .ok (true, some v) else .ok (false, none)

/-- Embeds `chain.As` (source lines 97-126): validate the target
(`x.ValueOf`, then `x.MakeTypeExample`), then run the loop. -/
def asGo (v target : Val) : Except String (Bool × Option Val) :=
  if semNil target then .error nilTargetMsg
  else
    match typeOf target with
    | none => .error nilTargetMsg
    | some tt =>
      match pointee tt with
      | none => .error ptrTargetMsg
      | some t => asLoop v t

/-- Embeds the loop of `chain.Build` (source lines 169-187). A `*Link` (or
`*buildLink`) element implements `iface.Wrap` and accepts: its holder is
overwritten with the running head. A typed nil `*Link` element panics inside
`Wrap` (nil receiver). Any other element is lifted into a fresh `*buildLink`
holding it and wrapping the running head. -/
def buildLoop : Val → List Val → Except String Val
  | src, [] => .ok src
  | src, dst :: rest =>
    match dst with
    | .linkV b hd _ _ => buildLoop (.linkV b hd src true) rest
    | .nilOf t =>
      match t with
      | .linkT => .error nilDerefMsg
      | .buildLinkT => .error nilDerefMsg
      | _ => buildLoop (.linkV true (.nilOf t) src true) rest
    | _ => buildLoop (.linkV true dst src true) rest

/-- Embeds `chain.Build` (source lines 161-188). -/
def buildGo : List Val → Except String Val
  | [] => .error emptyBuildMsg
  | [v] => .ok v
  | v :: rest => buildLoop v rest

/-- Embeds `chain.Holder`: its Go zero value is `(nil, false)`. -/
structure Holder where
  Value : Val
  Ok : Bool
deriving DecidableEq, Repr

/-- The zero-value (never filled) `Holder`. -/
def Holder.empty : Holder := ⟨.nilV, false⟩

/-- Embeds `Holder.Set`. -/
def Holder.Set (_ : Holder) (v : Val) : Holder := ⟨v, true⟩

/-- Embeds `Holder.Get`. -/
def Holder.Get (h : Holder) : Val × Bool :=
  if h.Ok then (h.Value, true) else (.nilV, false)

/-- Embeds `chain.Hold`. -/
def Hold (v : Val) : Holder := Holder.empty.Set v

/-- A sequence of `Set` calls applied to a holder, oldest first. -/
def applySets (h : Holder) (ops : List Val) : Holder := ops.foldl Holder.Set h

/-- Embeds `Link.Wrap` on a `*Link` value: store the predecessor in the
holder and report acceptance (identity on non-link values, unused). -/
def linkWrap : Val → Val → Val
  | .linkV b hd _ _, p => .linkV b hd p true
  | v, _ => v

/-- The chain value produced by the spec's Build example
`Build("a","b","c")`: a `*buildLink` holding "c" wrapping a `*buildLink`
holding "b" wrapping "a". -/
def abcChain : Val :=
  .linkV true (.str ("c")) (.linkV true (.str ("b")) (.str ("a")) true) true

/-! ### Spec-side definitions for the `As` first-match refinement

The following definitions follow the words of the specification of `As`
(section 4.4: walk the chain; at each node test assignability first, then the
custom hook; the first node at which either succeeds determines the result).
They are compared with `asLoop`, the embedding of the source. -/

/-- The chain of a value: the value followed by the values obtained by
repeated unwrapping (spec section 3). -/
def chainNodes : Val → List Val
  | v@(.linkV _ _ hv hok) => v :: (if hok then chainNodes hv else [])
  | v@(.node _ _ _ _ _ _ _ uwI uwOk uwV) =>
    v :: (if uwI && uwOk then chainNodes uwV else [])
  | v => [v]

/-- Spec test 1 at a node: the node's concrete runtime type is assignable to
the target pointee type. -/
def nodeAssign (n : Val) (t : Ty) : Bool :=
  match typeOf n with
  | some vt => assignableTo vt t
  | none => false

/-- Spec test 2 at a node: the node's custom `As` hook succeeds on the target
(for a `*Link`, the hook is `As` restarted on the held value). -/
def hookFire (n : Val) (t : Ty) : Bool :=
  match n with
  | .linkV _ hd _ _ =>
    match asLoop hd t with
    | .ok (true, _) => true
    | _ => false
  | .node _ _ _ _ aI asT _ _ _ _ => aI && decide (t = asT)
  | _ => false

/-- The value the custom `As` hook writes into the target when it succeeds. -/
def hookWrite (n : Val) (t : Ty) : Option Val :=
  match n with
  | .linkV _ hd _ _ =>
    match asLoop hd t with
    | .ok (true, w) => w
    | _ => none
  | .node _ _ _ _ aI asT asV _ _ _ =>
    if aI && decide (t = asT) then some asV else none
  | _ => none

/-- The effect of a matching node on the target slot: assignability is tested
first and writes the node itself; otherwise the hook's write. -/
def nodeEffect (n : Val) (t : Ty) : Option Val :=
  if nodeAssign n t then some n else hookWrite n t

/-- The result of `As` according to the spec: the first node of the chain at
which either test succeeds determines the result; no match means false with
the target untouched. -/
def asSpecResult (v : Val) (t : Ty) : Bool × Option Val :=
  match (chainNodes v).find? (fun n => nodeAssign n t || hookFire n t) with
  | some n => (true, nodeEffect n t)
  | none => (false, none)

/-- Values whose `As` traversal cannot hit the nil-`reflect.Type` panic: the
value is not a nil interface node, no typed nil `*Link` occurs, and the same
holds hereditarily for link-held sub-chains and all successors. -/
def asSafe : Val → Bool
  | .nilV => false
  | .nilOf t =>
    match t with
    | .linkT => false
    | .buildLinkT => false
    | _ => true
  | .linkV _ hd hv hok => asSafe hd && (!hok || asSafe hv)
  | .node _ _ _ _ _ _ _ uwI uwOk uwV => !(uwI && uwOk) || asSafe uwV
  | _ => true

/-- Values containing no non-nil function value in a position examined by
`reflect.DeepEqual` (non-nil function values are never deeply equal, even to
themselves). -/
def funcFree : Val → Bool
  | .fn _ => false
  | .linkV _ hd hv _ => funcFree hd && funcFree hv
  | _ => true

/-! ### Helper lemmas -/

/-- `reflect.DeepEqual` is reflexive on function-free values. -/
theorem deepEqual_refl (v : Val) (h : funcFree v = true) : deepEqual v v = true := by
  induction v with
  | linkV b hd hv hok ihd ihv =>
    simp only [funcFree, Bool.and_eq_true] at h
    simp [deepEqual, ihd h.1, ihv h.2]
  | fn i => simp [funcFree] at h
  | _ => simp [deepEqual]


/-! ### Unfolding equations (definitional, by `rfl`) -/

theorem asLoop_nilV (t : Ty) : asLoop .nilV t = .error nilDerefMsg := rfl

theorem asLoop_linkV (b : Bool) (hd hv : Val) (hok : Bool) (t : Ty) :
    asLoop (.linkV b hd hv hok) t =
      if assignableTo (if b then .buildLinkT else .linkT) t then
        .ok (true, some (.linkV b hd hv hok))
      else
        match asLoop hd t with
        | .error e => .error e
        | .ok (true, w) => .ok (true, w)
        | .ok (false, _) => if hok then asLoop hv t else .ok (false, none) := rfl

theorem asLoop_node (i : Nat) (ns isI : Bool) (isA : Val) (asI : Bool) (asT : Ty)
    (asV : Val) (uwI uwOk : Bool) (uwV : Val) (t : Ty) :
    asLoop (.node i ns isI isA asI asT asV uwI uwOk uwV) t =
      if assignableTo (.custom i) t then
        .ok (true, some (.node i ns isI isA asI asT asV uwI uwOk uwV))
      else if asI && decide (t = asT) then .ok (true, some asV)
      else if uwI && uwOk then asLoop uwV t
      else .ok (false, none) := rfl

theorem asLoop_nilOf (ty t : Ty) :
    asLoop (.nilOf ty) t =
      if assignableTo ty t then .ok (true, some (.nilOf ty))
      else
        match ty with
        | .linkT => .error nilDerefMsg
        | .buildLinkT => .error nilDerefMsg
        | _ => .ok (false, none) := by cases ty <;> rfl

theorem asLoop_str (s : String) (t : Ty) :
    asLoop (.str s) t =
      if assignableTo .str t then .ok (true, some (.str s)) else .ok (false, none) := rfl

theorem asLoop_intV (n : Int) (t : Ty) :
    asLoop (.intV n) t =
      if assignableTo .int t then .ok (true, some (.intV n)) else .ok (false, none) := rfl

theorem asLoop_fn (i : Nat) (t : Ty) :
    asLoop (.fn i) t =
      if assignableTo (.funcT i) t then .ok (true, some (.fn i)) else .ok (false, none) := rfl

theorem asLoop_sliceV (es : List Int) (t : Ty) :
    asLoop (.sliceV es) t =
      if assignableTo (.slice .int) t then .ok (true, some (.sliceV es))
      else .ok (false, none) := rfl

theorem asLoop_ptrV (p t : Ty) :
    asLoop (.ptrV p) t =
      if assignableTo (.ptr p) t then .ok (true, some (.ptrV p)) else .ok (false, none) := rfl

theorem isGo_linkV (b : Bool) (hd hv : Val) (hok : Bool) (t : Val) :
    isGo (.linkV b hd hv hok) t =
      match nodeTest (.linkV b hd hv hok) t with
      | .panic e => .error e
      | .ret r => .ok r
      | .cont => if hok then isGo hv t else .ok false := rfl

theorem isGo_node (i : Nat) (ns isI : Bool) (isA : Val) (asI : Bool) (asT : Ty)
    (asV : Val) (uwI uwOk : Bool) (uwV : Val) (t : Val) :
    isGo (.node i ns isI isA asI asT asV uwI uwOk uwV) t =
      match nodeTest (.node i ns isI isA asI asT asV uwI uwOk uwV) t with
      | .panic e => .error e
      | .ret r => .ok r
      | .cont => if uwI && uwOk then isGo uwV t else .ok false := rfl

theorem isGo_nilV (t : Val) :
    isGo .nilV t =
      match nodeTest .nilV t with
      | .panic e => .error e
      | .ret r => .ok r
      | .cont => .ok false := rfl

theorem isGo_str (s : String) (t : Val) :
    isGo (.str s) t =
      match nodeTest (.str s) t with
      | .panic e => .error e
      | .ret r => .ok r
      | .cont => .ok false := rfl

theorem isGo_intV (n : Int) (t : Val) :
    isGo (.intV n) t =
      match nodeTest (.intV n) t with
      | .panic e => .error e
      | .ret r => .ok r
      | .cont => .ok false := rfl

theorem isGo_fn (i : Nat) (t : Val) :
    isGo (.fn i) t =
      match nodeTest (.fn i) t with
      | .panic e => .error e
      | .ret r => .ok r
      | .cont => .ok false := rfl

theorem isGo_sliceV (es : List Int) (t : Val) :
    isGo (.sliceV es) t =
      match nodeTest (.sliceV es) t with
      | .panic e => .error e
      | .ret r => .ok r
      | .cont => .ok false := rfl

theorem isGo_nilOf (ty : Ty) (t : Val) :
    isGo (.nilOf ty) t =
      match nodeTest (.nilOf ty) t with
      | .panic e => .error e
      | .ret r => .ok r
      | .cont => .ok false := rfl

theorem isGo_ptrV (p : Ty) (t : Val) :
    isGo (.ptrV p) t =
      match nodeTest (.ptrV p) t with
      | .panic e => .error e
      | .ret r => .ok r
      | .cont => .ok false := rfl

theorem chainNodes_linkV (b : Bool) (hd hv : Val) (hok : Bool) :
    chainNodes (.linkV b hd hv hok) =
      .linkV b hd hv hok :: (if hok then chainNodes hv else []) := rfl

theorem chainNodes_node (i : Nat) (ns isI : Bool) (isA : Val) (asI : Bool) (asT : Ty)
    (asV : Val) (uwI uwOk : Bool) (uwV : Val) :
    chainNodes (.node i ns isI isA asI asT asV uwI uwOk uwV) =
      .node i ns isI isA asI asT asV uwI uwOk uwV ::
        (if uwI && uwOk then chainNodes uwV else []) := rfl

/-! ### Further helper lemmas -/

/-- The advance step inlined per constructor in `isGo` agrees with the
capability dispatch `unwrapGo`: at a node where no per-node test fires, `Is`
continues at the unwrapped predecessor, returns false when there is none, and
propagates an unwrap panic. -/
theorem isGo_advance (v tgt : Val) (hcont : nodeTest v tgt = .cont) :
    isGo v tgt =
      match unwrapGo v with
      | .error e => .error e
      | .ok (v', true) => isGo v' tgt
      | .ok (_, false) => .ok false := by
  cases v with
  | linkV b hd hv hok =>
    rw [isGo_linkV, hcont]
    cases hok with
    | true => rfl
    | false => rfl
  | node i ns isI isA asI asT asV uwI uwOk uwV =>
    rw [isGo_node, hcont]
    cases uwI <;> cases uwOk <;> rfl
  | nilOf ty =>
    cases ty with
    | linkT =>
      exfalso
      rw [nodeTest] at hcont
      by_cases hsn : semNil tgt = true
      · rw [if_pos (by rw [hsn]; rfl)] at hcont
        exact StepRes.noConfusion hcont
      · rw [if_neg (by simp [hsn])] at hcont
        have hic : isHookCall (.nilOf .linkT) tgt = some (.error nilDerefMsg) := rfl
        rw [hic] at hcont
        exact StepRes.noConfusion hcont
    | buildLinkT =>
      exfalso
      rw [nodeTest] at hcont
      by_cases hsn : semNil tgt = true
      · rw [if_pos (by rw [hsn]; rfl)] at hcont
        exact StepRes.noConfusion hcont
      · rw [if_neg (by simp [hsn])] at hcont
        have hic : isHookCall (.nilOf .buildLinkT) tgt = some (.error nilDerefMsg) := rfl
        rw [hic] at hcont
        exact StepRes.noConfusion hcont
    | _ => rw [isGo_nilOf, hcont]; rfl
  | nilV => rw [isGo_nilV, hcont]; rfl
  | str s => rw [isGo_str, hcont]; rfl
  | intV n => rw [isGo_intV, hcont]; rfl
  | fn i => rw [isGo_fn, hcont]; rfl
  | sliceV es => rw [isGo_sliceV, hcont]; rfl
  | ptrV p => rw [isGo_ptrV, hcont]; rfl


/-- When the right operand's dynamic type is comparable, `eqIface` does not
panic. -/
theorem eqIface_some (a b : Val) (tb : Ty) (hb : typeOf b = some tb)
    (hc : comparableTy tb = true) : ∃ r, eqIface a b = some r := by
  cases a <;> cases b <;>
    simp only [typeOf, Option.some.injEq] at hb <;>
    simp only [eqIface, typeOf] <;>
    first
      | exact ⟨_, rfl⟩
      | split_ifs <;> simp_all

/-- `asLoop` writes into the target exactly when it returns true. -/
theorem asLoop_write (t : Ty) : ∀ (v : Val) (b : Bool) (w : Option Val),
    asLoop v t = .ok (b, w) → w.isSome = b := by
  intro v
  induction v with
  | nilV => intro b w h; exact absurd h (by simp [asLoop_nilV])
  | linkV bi hd hv hok ihd ihv =>
    intro b w h
    rw [asLoop_linkV] at h
    by_cases ha : assignableTo (if bi then Ty.buildLinkT else Ty.linkT) t = true
    · rw [if_pos ha, Except.ok.injEq, Prod.mk.injEq] at h
      obtain ⟨hb, hw⟩ := h
      subst hb; subst hw; rfl
    · rw [if_neg ha] at h
      cases heq : asLoop hd t with
      | error e => rw [heq] at h; exact Except.noConfusion h
      | ok p =>
        obtain ⟨pb, pw⟩ := p
        rw [heq] at h
        cases pb with
        | true =>
          dsimp only at h
          rw [Except.ok.injEq, Prod.mk.injEq] at h
          obtain ⟨hb, hw⟩ := h
          subst hb; subst hw
          exact ihd _ _ heq
        | false =>
          dsimp only at h
          by_cases hk : hok = true
          · rw [if_pos hk] at h
            exact ihv _ _ h
          · rw [if_neg hk, Except.ok.injEq, Prod.mk.injEq] at h
            obtain ⟨hb, hw⟩ := h
            subst hb; subst hw; rfl
  | node i ns isI isA asI asT asV uwI uwOk uwV iha ihs ihu =>
    intro b w h
    rw [asLoop_node] at h
    split at h
    · rw [Except.ok.injEq, Prod.mk.injEq] at h
      obtain ⟨hb, hw⟩ := h
      subst hb; subst hw; rfl
    · split at h
      · rw [Except.ok.injEq, Prod.mk.injEq] at h
        obtain ⟨hb, hw⟩ := h
        subst hb; subst hw; rfl
      · split at h
        · exact ihu _ _ h
        · rw [Except.ok.injEq, Prod.mk.injEq] at h
          obtain ⟨hb, hw⟩ := h
          subst hb; subst hw; rfl
  | nilOf ty =>
    intro b w h
    rw [asLoop_nilOf] at h
    split at h
    · rw [Except.ok.injEq, Prod.mk.injEq] at h
      obtain ⟨hb, hw⟩ := h
      subst hb; subst hw; rfl
    · cases ty <;> dsimp only at h <;>
        first
          | exact Except.noConfusion h
          | (rw [Except.ok.injEq, Prod.mk.injEq] at h
             obtain ⟨hb, hw⟩ := h
             subst hb; subst hw; rfl)
  | str s =>
    intro b w h
    rw [asLoop_str] at h
    split at h <;>
      (rw [Except.ok.injEq, Prod.mk.injEq] at h
       obtain ⟨hb, hw⟩ := h
       subst hb; subst hw; rfl)
  | intV n =>
    intro b w h
    rw [asLoop_intV] at h
    split at h <;>
      (rw [Except.ok.injEq, Prod.mk.injEq] at h
       obtain ⟨hb, hw⟩ := h
       subst hb; subst hw; rfl)
  | fn i =>
    intro b w h
    rw [asLoop_fn] at h
    split at h <;>
      (rw [Except.ok.injEq, Prod.mk.injEq] at h
       obtain ⟨hb, hw⟩ := h
       subst hb; subst hw; rfl)
  | sliceV es =>
    intro b w h
    rw [asLoop_sliceV] at h
    split at h <;>
      (rw [Except.ok.injEq, Prod.mk.injEq] at h
       obtain ⟨hb, hw⟩ := h
       subst hb; subst hw; rfl)
  | ptrV p =>
    intro b w h
    rw [asLoop_ptrV] at h
    split at h <;>
      (rw [Except.ok.injEq, Prod.mk.injEq] at h
       obtain ⟨hb, hw⟩ := h
       subst hb; subst hw; rfl)

theorem hookFire_linkV (b : Bool) (hd hv : Val) (hok : Bool) (t : Ty) :
    hookFire (.linkV b hd hv hok) t =
      match asLoop hd t with
      | .ok (true, _) => true
      | _ => false := rfl

theorem hookWrite_linkV (b : Bool) (hd hv : Val) (hok : Bool) (t : Ty) :
    hookWrite (.linkV b hd hv hok) t =
      match asLoop hd t with
      | .ok (true, w) => w
      | _ => none := rfl

theorem hookFire_node (i : Nat) (ns isI : Bool) (isA : Val) (asI : Bool) (asT : Ty)
    (asV : Val) (uwI uwOk : Bool) (uwV : Val) (t : Ty) :
    hookFire (.node i ns isI isA asI asT asV uwI uwOk uwV) t = (asI && decide (t = asT)) := rfl

theorem hookWrite_node (i : Nat) (ns isI : Bool) (isA : Val) (asI : Bool) (asT : Ty)
    (asV : Val) (uwI uwOk : Bool) (uwV : Val) (t : Ty) :
    hookWrite (.node i ns isI isA asI asT asV uwI uwOk uwV) t =
      if asI && decide (t = asT) then some asV else none := rfl

/-- First-match result on a chain-terminal value with no custom `As` hook. -/
theorem asSpecResult_single (v : Val) (vt t : Ty) (hty : typeOf v = some vt)
    (hch : chainNodes v = [v]) (hf : hookFire v t = false) :
    asSpecResult v t = if assignableTo vt t then (true, some v) else (false, none) := by
  rw [asSpecResult, hch]
  cases ha : assignableTo vt t with
  | true =>
    rw [List.find?_cons_of_pos _ (by simp [nodeAssign, hty, ha])]
    simp [nodeEffect, nodeAssign, hty, ha]
  | false =>
    rw [List.find?_cons_of_neg _ (by simp [nodeAssign, hty, ha, hf]), List.find?_nil]
    simp

/-- The `As` loop refines the spec's first-match description: on values whose
traversal cannot panic, the result is determined by the first chain node at
which assignability or the custom hook succeeds, with assignability tested
first. -/
theorem asLoop_spec (t : Ty) : ∀ (v : Val), asSafe v = true →
    asLoop v t = .ok (asSpecResult v t) := by
  intro v
  induction v with
  | nilV => intro h; simp [asSafe] at h
  | linkV bi hd hv hok ihd ihv =>
    intro h
    rw [asSafe, Bool.and_eq_true] at h
    obtain ⟨hhd, hhv⟩ := h
    have hds := ihd hhd
    have hna : nodeAssign (.linkV bi hd hv hok) t =
        assignableTo (if bi then Ty.buildLinkT else Ty.linkT) t := by
      simp [nodeAssign, typeOf]
    cases ha : assignableTo (if bi then Ty.buildLinkT else Ty.linkT) t with
    | true =>
      rw [asLoop_linkV, ha, if_pos rfl, asSpecResult, chainNodes_linkV,
        List.find?_cons_of_pos _ (by rw [hna, ha, Bool.true_or])]
      simp [nodeEffect, hna, ha]
    | false =>
      rw [asLoop_linkV, ha, if_neg (by simp), hds]
      cases hspec : asSpecResult hd t with
      | mk rb wr =>
        have hfire : hookFire (.linkV bi hd hv hok) t = rb := by
          rw [hookFire_linkV, hds, hspec]
          cases rb <;> rfl
        cases rb with
        | true =>
          dsimp only
          rw [asSpecResult, chainNodes_linkV,
            List.find?_cons_of_pos _ (by rw [Bool.or_eq_true]; right; exact hfire)]
          dsimp only
          rw [nodeEffect, hna, ha, if_neg (by simp), hookWrite_linkV, hds, hspec]
        | false =>
          dsimp only
          rw [asSpecResult, chainNodes_linkV,
            List.find?_cons_of_neg _ (by rw [Bool.or_eq_true]; push_neg; exact ⟨by rw [hna, ha]; simp, by rw [hfire]; simp⟩)]
          cases hok with
          | true =>
            rw [Bool.not_true, Bool.false_or] at hhv
            rw [if_pos rfl, if_pos rfl, ihv hhv, asSpecResult]
          | false =>
            rw [if_neg (by simp), if_neg (by simp), List.find?_nil]
  | node i ns isI isA asI asT asV uwI uwOk uwV iha ihs ihu =>
    intro h
    rw [asSafe] at h
    have hna : nodeAssign (.node i ns isI isA asI asT asV uwI uwOk uwV) t =
        assignableTo (.custom i) t := by
      simp [nodeAssign, typeOf]
    cases ha : assignableTo (.custom i) t with
    | true =>
      rw [asLoop_node, ha, if_pos rfl, asSpecResult, chainNodes_node,
        List.find?_cons_of_pos _ (by rw [hna, ha, Bool.true_or])]
      simp [nodeEffect, hna, ha]
    | false =>
      rw [asLoop_node, ha, if_neg (by simp)]
      cases hh : (asI && decide (t = asT)) with
      | true =>
        rw [if_pos rfl, asSpecResult, chainNodes_node,
          List.find?_cons_of_pos _ (by rw [hookFire_node, hh, Bool.or_true])]
        dsimp only
        rw [nodeEffect, hna, ha, if_neg (by simp), hookWrite_node, hh, if_pos rfl]
      | false =>
        rw [if_neg (by simp), asSpecResult, chainNodes_node,
          List.find?_cons_of_neg _ (by rw [hookFire_node, hh, hna, ha]; simp)]
        cases hu : (uwI && uwOk) with
        | true =>
          rw [hu] at h
          rw [Bool.not_true, Bool.false_or] at h
          rw [if_pos rfl, if_pos rfl, ihu h, asSpecResult]
        | false =>
          rw [if_neg (by simp), if_neg (by simp), List.find?_nil]
  | nilOf ty =>
    intro h
    have hch : chainNodes (.nilOf ty) = [.nilOf ty] := rfl
    have hf : hookFire (.nilOf ty) t = false := rfl
    rw [asLoop_nilOf, asSpecResult_single (.nilOf ty) ty t rfl hch hf]
    cases ha : assignableTo ty t with
    | true => rw [if_pos rfl, if_pos rfl]
    | false =>
      rw [if_neg (by simp), if_neg (by simp)]
      cases ty <;> first
        | rfl
        | exact Bool.noConfusion h
  | str s =>
    intro _
    rw [asLoop_str, asSpecResult_single (.str s) .str t rfl rfl rfl]
    split <;> rfl
  | intV n =>
    intro _
    rw [asLoop_intV, asSpecResult_single (.intV n) .int t rfl rfl rfl]
    split <;> rfl
  | fn i =>
    intro _
    rw [asLoop_fn, asSpecResult_single (.fn i) (.funcT i) t rfl rfl rfl]
    split <;> rfl
  | sliceV es =>
    intro _
    rw [asLoop_sliceV, asSpecResult_single (.sliceV es) (.slice .int) t rfl rfl rfl]
    split <;> rfl
  | ptrV p =>
    intro _
    rw [asLoop_ptrV, asSpecResult_single (.ptrV p) (.ptr p) t rfl rfl rfl]
    split <;> rfl

theorem nodeTest_self (v : Val) (h1 : semNil v = false) (h2 : funcFree v = true) :
    nodeTest v v = .ret true := by
  rw [nodeTest, h1]
  rw [if_neg (by simp)]
  cases v with
  | nilV => exact Bool.noConfusion h1
  | linkV b hd hv hok =>
    have hcmp : comparableTy (if b then Ty.buildLinkT else Ty.linkT) = true := by
      cases b <;> rfl
    obtain ⟨r, hr⟩ := eqIface_some hd (.linkV b hd hv hok)
      (if b then Ty.buildLinkT else Ty.linkT) rfl hcmp
    rw [isHookCall, hr]
    cases r with
    | true => rfl
    | false =>
      dsimp only
      simp [deepEqual_refl _ h2]
  | node i ns isI isA asI asT asV uwI uwOk uwV =>
    rw [isHookCall]
    cases isI with
    | true =>
      rw [if_pos rfl]
      cases hq : decide ((Val.node i ns true isA asI asT asV uwI uwOk uwV) = isA) with
      | true => rfl
      | false =>
        dsimp only
        simp [deepEqual_refl _ h2]
    | false =>
      rw [if_neg (by simp)]
      dsimp only
      simp [deepEqual_refl _ h2]
  | nilOf ty => exact Bool.noConfusion h1
  | str s =>
    have hic : isHookCall (.str s) (.str s) = none := rfl
    rw [hic]
    dsimp only
    simp [deepEqual_refl _ h2]
  | intV n =>
    have hic : isHookCall (.intV n) (.intV n) = none := rfl
    rw [hic]
    dsimp only
    simp [deepEqual_refl _ h2]
  | fn i => exact Bool.noConfusion h2
  | sliceV es =>
    have hic : isHookCall (.sliceV es) (.sliceV es) = none := rfl
    rw [hic]
    dsimp only
    simp [deepEqual_refl _ h2]
  | ptrV p =>
    have hic : isHookCall (.ptrV p) (.ptrV p) = none := rfl
    rw [hic]
    dsimp only
    simp [deepEqual_refl _ h2]

/-- `Is` is reflexive on non-nil function-free values (first node matches). -/
theorem isGo_self (v : Val) (h1 : semNil v = false) (h2 : funcFree v = true) :
    isGo v v = .ok true := by
  have ht := nodeTest_self v h1 h2
  cases v with
  | nilV => exact Bool.noConfusion h1
  | linkV b hd hv hok => rw [isGo_linkV, ht]
  | node i ns isI isA asI asT asV uwI uwOk uwV => rw [isGo_node, ht]
  | nilOf ty => exact Bool.noConfusion h1
  | str s => rw [isGo_str, ht]
  | intV n => rw [isGo_intV, ht]
  | fn i => exact Bool.noConfusion h2
  | sliceV es => rw [isGo_sliceV, ht]
  | ptrV p => rw [isGo_ptrV, ht]

/-! ### Claim theorems -/

/-- Claim C1: Build applied to the plain (non-Wrappable) values "a","b","c" in that
order returns a chain head on which Is holds for "a","b","c" and fails for
"d"; As with a string target returns true writing "c" (most recent node
wins); and after one successful Unwrap, As writes "b". -/
theorem c1_build_transitive_is :
    buildGo [.str ("a"), .str ("b"), .str ("c")] = .ok abcChain
  ∧ isGo abcChain (.str ("a")) = .ok true
  ∧ isGo abcChain (.str ("b")) = .ok true
  ∧ isGo abcChain (.str ("c")) = .ok true
  ∧ isGo abcChain (.str ("d")) = .ok false
  ∧ asGo abcChain (.ptrV .str) = .ok (true, some (.str ("c")))
  ∧ unwrapGo abcChain = .ok (.linkV true (.str ("b")) (.str ("a")) true, true)
  ∧ asGo (.linkV true (.str ("b")) (.str ("a")) true) (.ptrV .str) =
      .ok (true, some (.str ("b"))) :=
  ⟨rfl, rfl, rfl, rfl, rfl, rfl, rfl, rfl⟩

/-- Claim C2: for every panic-free chain and valid target, As is the first-match
search described by the spec: at each node assignability is tested before the
custom hook (a node matching by assignability writes the node itself, never
the hook's value), the first matching node determines the result, and no
search continues past it. -/
theorem c2_as_first_match :
    (∀ (v : Val) (t : Ty), asSafe v = true →
        asGo v (.ptrV t) = .ok (asSpecResult v t))
  ∧ (∀ (n : Val) (t : Ty), nodeAssign n t = true → nodeEffect n t = some n) := by
  constructor
  · intro v t h
    have hpre : asGo v (.ptrV t) = asLoop v t := rfl
    rw [hpre, asLoop_spec t v h]
  · intro n t h
    rw [nodeEffect, if_pos h]

/-- Claim C2 witness: a node that is both assignable and hook-convertible resolves
by assignability (writing the node, not the hook value), and the hypotheses
are dischargeable at concrete inputs. -/
theorem c2_as_first_match_witness :
    asGo (.node 5 false false .nilV true (.custom 5) (.str ("z")) false false .nilV)
        (.ptrV (.custom 5)) =
      .ok (asSpecResult
        (.node 5 false false .nilV true (.custom 5) (.str ("z")) false false .nilV)
        (.custom 5))
  ∧ nodeEffect (.str ("a")) .str = some (.str ("a")) :=
  ⟨c2_as_first_match.1 _ _ rfl, c2_as_first_match.2 _ _ rfl⟩

/-- Claim C3: contrary to the claim, As does not terminate normally on a nil
starting value or on a chain containing a nil node: it panics with a nil
pointer dereference (the nil `reflect.Type` of the nil node is handed to
`TypeExample.AssignableFrom`). The Is and Unwrap halves of the claim do
return ordinary false results. -/
theorem c3_as_nil_panics :
    asGo .nilV (.ptrV .str) = .error nilDerefMsg
  ∧ asGo (.linkV true (.str ("x")) .nilV true) (.ptrV .int) = .error nilDerefMsg
  ∧ isGo .nilV (.str ("q")) = .ok false
  ∧ unwrapGo (.str ("q")) = .ok (.nilV, false) :=
  ⟨rfl, rfl, rfl, rfl⟩

/-- Claim C4 counterexample: a non-nil function value refutes unrestricted
reflexivity: `Is(f, f)` is false for a non-nil func (DeepEqual never equates
non-nil functions, and funcs have no custom hook). -/
theorem c4_counterexample :
    semNil (.fn 0) = false ∧ isGo (.fn 0) (.fn 0) = .ok false :=
  ⟨rfl, rfl⟩

/-- Claim C4 (amended): a node whose isEqual hook accepts the target matches
regardless of structural equality (the hook precedes the structural test),
and Is is reflexive on every non-nil value that is deep-equal to itself
(function-free values; non-nil function values are the exception). -/
theorem c4_is_hook_precedence_refl :
    (∀ (i : Nat) (aI : Bool) (aT : Ty) (aV : Val) (uI uO : Bool) (uV : Val)
        (target : Val),
      isGo (.node i false true target aI aT aV uI uO uV) target = .ok true)
  ∧ (∀ v : Val, semNil v = false → funcFree v = true → isGo v v = .ok true) := by
  constructor
  · intro i aI aT aV uI uO uV target
    rw [isGo_node, nodeTest]
    rw [if_neg (by simp [semNil])]
    rw [isHookCall, if_pos rfl]
    have hq : decide (target = target) = true := by simp
    rw [hq]
  · intro v h1 h2
    exact isGo_self v h1 h2

/-- Claim C4 witness: the reflexivity hypotheses hold at a concrete Link value. -/
theorem c4_witness :
    isGo (.linkV false (.str ("w")) .nilV false) (.linkV false (.str ("w")) .nilV false) =
      .ok true :=
  c4_is_hook_precedence_refl.2 _ rfl rfl

/-- Claim C5 counterexample: a semantically-nil node (nil receiver) whose declared
type differs from the nil target makes Is return false immediately, even
though its predecessor exists and matches the target — traversal does not
advance via Unwrap as the claim states. -/
theorem c5_counterexample :
    isGo (.node 7 true false .nilV false .int .nilV true true (.nilOf (.ptr .int)))
        (.nilOf (.ptr .int)) = .ok false
  ∧ unwrapGo (.node 7 true false .nilV false .int .nilV true true (.nilOf (.ptr .int))) =
      .ok (.nilOf (.ptr .int), true)
  ∧ isGo (.nilOf (.ptr .int)) (.nilOf (.ptr .int)) = .ok true :=
  ⟨rfl, rfl, rfl⟩

/-- Claim C5 (amended): when both the node and the target are semantically nil, Is
returns the declared-type comparison immediately (true only on identical
types, and false without advancing via Unwrap even if a predecessor would
match); in the remaining cases a node at which no test matches advances via
Unwrap, and false is returned when there is no predecessor. -/
theorem c5_nil_nil_type_identity :
    (∀ v target : Val, semNil v = true → semNil target = true →
        isGo v target = .ok (decide (typeOf v = typeOf target)))
  ∧ isGo .nilV .nilV = .ok true
  ∧ isGo .nilV (.nilOf (.ptr (.slice .int))) = .ok false
  ∧ (∀ (b : Bool) (hd hv target : Val),
      eqIface hd target = some false →
      deepEqual (.linkV b hd hv true) target = false →
      isGo (.linkV b hd hv true) target = isGo hv target)
  ∧ (∀ (b : Bool) (hd hv target : Val),
      eqIface hd target = some false →
      deepEqual (.linkV b hd hv false) target = false →
      isGo (.linkV b hd hv false) target = .ok false) := by
  refine ⟨?_, rfl, rfl, ?_, ?_⟩
  · intro v target h1 h2
    have hcond : (semNil v && semNil target) = true := by rw [h1, h2]; rfl
    cases v with
    | nilV => rw [isGo_nilV, nodeTest, if_pos hcond]
    | nilOf ty => rw [isGo_nilOf, nodeTest, if_pos hcond]
    | node i ns isI isA asI asT asV uwI uwOk uwV =>
      rw [isGo_node, nodeTest, if_pos hcond]
    | linkV bi hd hv hok => exact Bool.noConfusion h1
    | str s => exact Bool.noConfusion h1
    | intV n => exact Bool.noConfusion h1
    | fn i => exact Bool.noConfusion h1
    | sliceV es => exact Bool.noConfusion h1
    | ptrV p => exact Bool.noConfusion h1
  · intro b hd hv target he hde
    rw [isGo_linkV, nodeTest]
    rw [if_neg (by simp [semNil])]
    rw [isHookCall, he]
    dsimp only
    rw [hde]
    rw [if_neg (by simp)]
    dsimp only
    rw [if_pos rfl]
  · intro b hd hv target he hde
    rw [isGo_linkV, nodeTest]
    rw [if_neg (by simp [semNil])]
    rw [isHookCall, he]
    dsimp only
    rw [hde]
    rw [if_neg (by simp)]
    dsimp only
    rw [if_neg (by simp)]

/-- Claim C5 witness: the amended equations hold at concrete inputs: two
typed nils of the same declared type match; a link whose held value and whole
node both fail to match advances to (or terminates at) its wrapped slot. -/
theorem c5_witness :
    isGo (.nilOf (.ptr .str)) (.nilOf (.ptr .str)) =
      .ok (decide (typeOf (Val.nilOf (.ptr .str)) = typeOf (Val.nilOf (.ptr .str))))
  ∧ isGo (.linkV true (.str ("p")) (.str ("q")) true) (.str ("q")) =
      isGo (.str ("q")) (.str ("q"))
  ∧ isGo (.linkV true (.str ("p")) .nilV false) (.str ("q")) = .ok false :=
  ⟨c5_nil_nil_type_identity.1 _ _ rfl rfl,
   c5_nil_nil_type_identity.2.2.2.1 true (.str ("p")) (.str ("q")) (.str ("q")) rfl rfl,
   c5_nil_nil_type_identity.2.2.2.2 true (.str ("p")) .nilV (.str ("q")) rfl rfl⟩

/-- Claim C6 counterexample: a node whose As hook returns false for a string target
does not stop the traversal: the search continues past it via Unwrap, finds
the assignable node "b", writes it into the target (overwriting any sentinel)
and returns true — contradicting the claim that traversal stops with the slot
untouched. -/
theorem c6_counterexample :
    asGo (.node 3 false false .nilV true .int .nilV true true (.str ("b"))) (.ptrV .str) =
      .ok (true, some (.str ("b"))) := rfl

/-- Claim C6 (amended): when a node's asConvert hook returns false for a
non-matching target, As leaves the slot unchanged at that node but continues
the traversal via Unwrap past the node; the slot is untouched overall exactly
when As returns false (no later node matches). -/
theorem c6_as_hook_optout :
    (∀ (i : Nat) (ns iI : Bool) (iA : Val) (aT : Ty) (aV : Val) (uV : Val) (t : Ty),
      assignableTo (.custom i) t = false → decide (t = aT) = false →
      asLoop (.node i ns iI iA true aT aV true true uV) t = asLoop uV t)
  ∧ (∀ (i : Nat) (ns iI : Bool) (iA : Val) (aT : Ty) (aV : Val) (uI uO : Bool)
        (uV : Val) (t : Ty),
      assignableTo (.custom i) t = false → decide (t = aT) = false →
      (uI && uO) = false →
      asLoop (.node i ns iI iA true aT aV uI uO uV) t = .ok (false, none))
  ∧ (∀ (v : Val) (t : Ty) (w : Option Val),
      asLoop v t = .ok (false, w) → w = none) := by
  refine ⟨?_, ?_, ?_⟩
  · intro i ns iI iA aT aV uV t h1 h2
    rw [asLoop_node]
    rw [if_neg (by rw [h1]; simp)]
    rw [if_neg (by rw [h2]; simp)]
    rw [if_pos (by decide)]
  · intro i ns iI iA aT aV uI uO uV t h1 h2 h3
    rw [asLoop_node]
    rw [if_neg (by rw [h1]; simp)]
    rw [if_neg (by rw [h2]; simp)]
    rw [if_neg (by rw [h3]; simp)]
  · intro v t w h
    have := asLoop_write t v false w h
    cases w with
    | none => rfl
    | some x => exact Bool.noConfusion this

/-- Claim C6 witness: the amended step equations hold at concrete inputs, and a
false result carries no write. -/
theorem c6_witness :
    asLoop (.node 3 false false .nilV true .int .nilV true true (.str ("b"))) .str =
      asLoop (.str ("b")) .str
  ∧ asLoop (.node 4 false false .nilV true .int .nilV false false .nilV) .str =
      .ok (false, none)
  ∧ (none : Option Val) = none :=
  ⟨c6_as_hook_optout.1 3 false false .nilV .int .nilV (.str ("b")) .str rfl rfl,
   c6_as_hook_optout.2.1 4 false false .nilV .int .nilV false false .nilV .str rfl rfl rfl,
   c6_as_hook_optout.2.2 (.str ("q")) .int none rfl⟩

/-- Claim C7: Build on an empty list panics with its message; As panics with
"must not be nil" on every semantically-nil target (including a typed nil
pointer) and with the distinct "must be a pointer" message on every non-nil
non-pointer target; every valid (non-nil pointer) target passes the
precondition phase, and a panic is distinct from an ordinary false result. -/
theorem c7_fatal_preconditions :
    buildGo [] = .error emptyBuildMsg
  ∧ (∀ (v target : Val), semNil target = true → asGo v target = .error nilTargetMsg)
  ∧ (∀ (v target : Val) (tt : Ty), semNil target = false → typeOf target = some tt →
      pointee tt = none → asGo v target = .error ptrTargetMsg)
  ∧ (∀ (v : Val) (t : Ty), asGo v (.ptrV t) = asLoop v t)
  ∧ nilTargetMsg ≠ ptrTargetMsg
  ∧ (∀ (e : String) (r : Bool × Option Val),
      (Except.error e : Except String (Bool × Option Val)) ≠ .ok r) := by
  refine ⟨rfl, ?_, ?_, ?_, by decide, ?_⟩
  · intro v target h
    rw [asGo, if_pos h]
  · intro v target tt h1 h2 h3
    rw [asGo, if_neg (by rw [h1]; simp), h2]
    dsimp only
    rw [h3]
  · intro v t
    rfl
  · intro e r h
    exact Except.noConfusion h

/-- Claim C7 witness: the precondition panics at concrete targets: a literal nil, a
semantically nil typed pointer, and a non-pointer. -/
theorem c7_witness :
    asGo (.str ("v")) .nilV = .error nilTargetMsg
  ∧ asGo (.str ("v")) (.nilOf (.ptr .str)) = .error nilTargetMsg
  ∧ asGo (.str ("v")) (.str ("t")) = .error ptrTargetMsg :=
  ⟨c7_fatal_preconditions.2.1 _ _ rfl,
   c7_fatal_preconditions.2.1 _ _ rfl,
   c7_fatal_preconditions.2.2.1 (.str ("v")) (.str ("t")) .str rfl rfl rfl⟩

/-- A holder reached by a nonempty sequence of Set calls is marked filled. -/
theorem applySets_ok (ops : List Val) : ∀ (h : Holder), ops ≠ [] →
    (applySets h ops).Ok = true := by
  induction ops with
  | nil => intro h hne; exact absurd rfl hne
  | cons a l ih =>
    intro h _
    cases l with
    | nil => rfl
    | cons b m => exact ih (h.Set a) (by simp)

/-- Claim C8: a Holder's Get returns (nil, false) exactly when the holder was never
Set; after Set(v) it returns (v, true) even for nil v; hence a Link unwraps
to present=false exactly when never wrapped, and a Link that wrapped nil
unwraps to (nil, true), distinguishable from an unwrapped Link. -/
theorem c8_holder_link :
    (∀ ops : List Val, (applySets Holder.empty ops).Get = (.nilV, false) ↔ ops = [])
  ∧ (∀ (h : Holder) (v : Val), (h.Set v).Get = (v, true))
  ∧ (∀ (b : Bool) (hd : Val), unwrapGo (.linkV b hd .nilV false) = .ok (.nilV, false))
  ∧ (∀ (b : Bool) (hd hv : Val) (hok : Bool) (p : Val),
      unwrapGo (linkWrap (.linkV b hd hv hok) p) = .ok (p, true))
  ∧ unwrapGo (linkWrap (.linkV false (.str ("x")) .nilV false) .nilV) =
      .ok (.nilV, true) := by
  refine ⟨?_, ?_, ?_, ?_, rfl⟩
  · intro ops
    constructor
    · intro hget
      by_contra hne
      have hok := applySets_ok ops Holder.empty hne
      rw [Holder.Get, if_pos hok] at hget
      exact Bool.noConfusion (congrArg Prod.snd hget)
    · intro h
      subst h
      rfl
  · intro h v
    rfl
  · intro b hd
    rfl
  · intro b hd hv hok p
    rfl

/-- Claim C9 counterexample: Build does modify a Wrappable input: the Link element
is returned as the new head with its wrap slot overwritten with the running
head (in the source, `src = dst` keeps the same pointer, so this is an
in-place mutation of the input Link's Holder). -/
theorem c9_counterexample :
    buildGo [.str ("a"), .linkV false (.str ("x")) .nilV false] =
      .ok (.linkV false (.str ("x")) (.str ("a")) true)
  ∧ Val.linkV false (.str ("x")) (.str ("a")) true ≠
      .linkV false (.str ("x")) .nilV false :=
  ⟨rfl, by decide⟩

/-- Claim C9 (amended): As writes into the target exactly when it returns true; Is
and Unwrap perform no writes (they are pure observations in this model);
Build leaves a plain (non-Wrappable) element unmodified, lifting it as the
held value of a fresh wrapper node, but overwrites the wrap slot of a
Wrappable (Link) element. -/
theorem c9_effects :
    (∀ (v target : Val) (b : Bool) (w : Option Val),
      asGo v target = .ok (b, w) → w.isSome = b)
  ∧ (∀ (s : String) (src : Val) (rest : List Val),
      buildLoop src (.str s :: rest) = buildLoop (.linkV true (.str s) src true) rest)
  ∧ (∀ (bi : Bool) (hd hv : Val) (hok : Bool) (src : Val) (rest : List Val),
      buildLoop src (.linkV bi hd hv hok :: rest) = buildLoop (.linkV bi hd src true) rest) := by
  refine ⟨?_, ?_, ?_⟩
  · intro v target b w h
    rw [asGo] at h
    split at h
    · exact Except.noConfusion h
    · split at h
      · exact Except.noConfusion h
      · split at h
        · exact Except.noConfusion h
        · exact asLoop_write _ v b w h
  · intro s src rest
    rfl
  · intro bi hd hv hok src rest
    rfl

/-- Claim C9 witness: As writing exactly on true, at a concrete conversion. -/
theorem c9_witness : (some (Val.str ("a"))).isSome = true :=
  c9_effects.1 (.str ("a")) (.ptrV .str) true (some (.str ("a"))) rfl

/-- Claim C10: the Link Is hook compares the held value to the target with native
interface equality, not deep equality: a slice is deeply equal to itself,
yet Is on a chain whose Link holds a slice panics (comparing an uncomparable
dynamic type) whenever the target is a slice of the same dynamic type,
instead of returning a boolean. -/
theorem c10_link_is_shallow_panics :
    (∀ es : List Int, deepEqual (.sliceV es) (.sliceV es) = true)
  ∧ (∀ (bi : Bool) (es fs : List Int) (hv : Val) (hok : Bool),
      isGo (.linkV bi (.sliceV es) hv hok) (.sliceV fs) = .error cmpPanicMsg) := by
  constructor
  · intro es
    simp [deepEqual]
  · intro bi es fs hv hok
    rw [isGo_linkV, nodeTest]
    rw [if_neg (by simp [semNil])]
    have he : eqIface (.sliceV es) (.sliceV fs) = none := rfl
    rw [isHookCall, he]
